import Mathlib

set_option maxHeartbeats 1000000

/-!
Formal model of the page-flip viewer embedded in the flipbook artifact
generated by `src/main.py` (the inline script of `_build_single_file_html`).

The gesture state machine is the script's module-level variables
(`page`, `dragging`, `dragX`, `startX`, `width`, `height`, `dpi`), plus the
targets of in-flight `animateTo` frame loops (closure state of pending
`requestAnimationFrame` callbacks).  Pointer coordinates and surface
geometry are rationals; the curl geometry values are reals because the
fold amount uses the cosine.  Rendering is modelled as the list of canvas
operations a frame emits, in source order.
-/

/-- easeInOutCubic (line 242 of the embedded script):
`x<0.5 ? 4*x*x*x : 1 - Math.pow(-2*x+2,3)/2`. -/
def easeInOutCubic {K : Type} [LinearOrderedField K] (x : K) : K :=
  if x < 1/2 then 4*x*x*x else 1 - (-2*x+2)^3/2

/-- easeOutCubic (line 243): `1 - Math.pow(1-x,3)`. -/
def easeOutCubic {K : Type} [LinearOrderedField K] (x : K) : K :=
  1 - (1-x)^3

/-- clamp (line 170): `Math.max(min, Math.min(max, v))`. -/
def clamp {K : Type} [LinearOrder K] (v mn mx : K) : K :=
  max mn (min mx v)

/-- The edge-zone margin (line 167): `const EDGE_ZONE = 28`. -/
def EDGE_ZONE : ℚ := 28

/-- devicePixelRatioSafe (line 168): `Math.min(window.devicePixelRatio||1, 2)`;
the JS `||1` replaces a zero/absent ratio by 1. -/
def devicePixelRatioSafe (dpr : ℚ) : ℚ :=
  min (if dpr = 0 then 1 else dpr) 2

/-- The script's interaction state: the module globals declared on line 167
(`page`, `dragging`, `dragX`, `startX`, `width`, `height`, `dpi`) together
with `anims`, the list of `(targetPage, dir)` pairs held by in-flight
`animateTo` frame-loop closures (most recently started first). -/
structure ViewerState where
  width : ℚ
  height : ℚ
  dpi : ℚ
  page : ℤ
  dragging : Bool
  startX : ℚ
  dragX : ℚ
  anims : List (ℤ × ℤ)
deriving DecidableEq

/-- The spec's phases.  `Animating` corresponds to at least one `animateTo`
frame loop being in flight; `Dragging` to the `dragging` flag with no
animation running; otherwise `Idle`. -/
inductive FlipPhase
  | idle
  | dragging
  | animating
deriving DecidableEq

/-- Phase of a state (derived; the script itself has no phase variable). -/
def phase (s : ViewerState) : FlipPhase :=
  if s.anims ≠ [] then FlipPhase.animating
  else if s.dragging then FlipPhase.dragging
  else FlipPhase.idle

/-- onPointerDown (lines 258-263): edge-zone test, then on an eligible edge
sets `dragging=true; startX=x` and seeds `dragX` with a 0.01 offset.  The
handler never inspects `dragging` or any animation state, and never touches
`page` or the pending animations; `highlightEdges` only changes DOM styling. -/
def onPointerDown (N : ℕ) (x : ℚ) (s : ViewerState) : ViewerState :=
  let leftEdge := x < EDGE_ZONE
  let rightEdge := x > s.width - EDGE_ZONE
  if leftEdge ∧ 0 < s.page then
    { s with dragging := true, startX := x, dragX := x + 1/100 }
  else if rightEdge ∧ s.page < (N : ℤ) - 1 then
    { s with dragging := true, startX := x, dragX := x - 1/100 }
  else s

/-- onPointerMove (line 264): while dragging, updates `dragX` (and redraws,
which changes no state); otherwise only the DOM edge highlight changes. -/
def onPointerMove (x : ℚ) (s : ViewerState) : ViewerState :=
  if s.dragging then { s with dragX := x } else s

/-- onPointerUp (line 265): recomputes the direction from the sign of
`dragX - startX` at release time, commits when `dist > width*0.22` by
starting an `animateTo(page+(dir===1?1:-1), dir)` frame loop (the flag
`dragging` is left `true` until that loop finishes), otherwise clears
`dragging` (the next render draws the flat current page). -/
def onPointerUp (s : ViewerState) : ViewerState :=
  if s.dragging then
    let dir : ℤ := if s.dragX < s.startX then 1 else -1
    let dist : ℚ := |s.dragX - s.startX|
    if dist > s.width * (22/100) then
      { s with anims := (s.page + (if dir = 1 then 1 else -1), dir) :: s.anims }
    else
      { s with dragging := false }
  else s

/-- Completion of one in-flight `animateTo` loop (line 253, the `t ≥ 1`
branch of `frame`): `page = targetPage; dragging = false`, and that loop
stops re-registering itself. -/
def animComplete (i : ℕ) (s : ViewerState) : ViewerState :=
  match s.anims.get? i with
  | some pair =>
    { s with page := pair.1, dragging := false, anims := s.anims.eraseIdx i }
  | none => s

/-- resize (line 169): reads the stage size and device pixel ratio and
rewrites only the surface geometry (`width`, `height`, `dpi`), then
redraws; no interaction field is touched. -/
def resize (w h dpr : ℚ) (s : ViewerState) : ViewerState :=
  { s with width := w, height := h, dpi := devicePixelRatioSafe dpr }

/-- Input events of the viewer. -/
inductive Ev
  | down (x : ℚ)
  | move (x : ℚ)
  | up
  | animDone (i : ℕ)
  | resizeEv (w h dpr : ℚ)

/-- One event step, for a document of `N` pages (`IMAGES.length = N`). -/
def step (N : ℕ) : Ev → ViewerState → ViewerState
  | Ev.down x, s => onPointerDown N x s
  | Ev.move x, s => onPointerMove x s
  | Ev.up, s => onPointerUp s
  | Ev.animDone i, s => animComplete i s
  | Ev.resizeEv w h dpr, s => resize w h dpr s

/-- Run a sequence of events. -/
def run (N : ℕ) (evs : List Ev) (s : ViewerState) : ViewerState :=
  evs.foldl (fun a e => step N e a) s

/-- The state right after `initFlip`'s initial `resize()`: the line-167
initial values `page=0, dragging=false, dragX=0, startX=0` with the surface
geometry already measured. -/
def initState (w h : ℚ) : ViewerState :=
  { width := w, height := h, dpi := 1, page := 0, dragging := false,
    startX := 0, dragX := 0, anims := [] }

/-- Canvas operations emitted by a frame, in draw order, abstracting the
2d-context calls of the script.  `pageImg i` is `drawPage(getImg(i))`. -/
inductive DrawOp
  | clearRect
  | pageImg (idx : ℤ)
  | ambient
  | clippedPage (idx : ℤ) (foldX ctrlOff : ℝ) (dir : ℤ)
  | shadowBand (x intensity : ℝ)
  | elevShadow (x lift : ℝ)
  | specular (x w strength : ℝ)
  | thickness (x0 : ℝ) (dir : ℤ)

/-- The `eased` local of drawFold (line 183): `const eased = easeOutCubic(t)`.
drawFold applies this easing to whatever progress it is handed. -/
noncomputable def drawFoldEased (t : ℝ) : ℝ :=
  easeOutCubic t

/-- The `fold` local of drawFold (line 184):
`(1-Math.cos(eased*Math.PI)) * 0.95`. -/
noncomputable def foldOf (t : ℝ) : ℝ :=
  (1 - Real.cos (drawFoldEased t * Real.pi)) * (95/100)

/-- The `foldX` local of drawFold (line 185):
`dir===1 ? width - fold*width : fold*width`. -/
noncomputable def foldXOf (t : ℝ) (dir : ℤ) (w : ℝ) : ℝ :=
  if dir = 1 then w - foldOf t * w else foldOf t * w

/-- drawFold (lines 181-225): back page, ambient overlay, bezier-clipped
front page, fold shadow band, elevation shadow, specular highlight, and
thickness band, with the constants of the source. -/
noncomputable def drawFold (front back : ℤ) (t : ℝ) (dir : ℤ) (w h : ℝ) :
    List DrawOp :=
  let eased := drawFoldEased t
  let foldX := foldXOf t dir w
  let ctrlOffBase := (22/100) * w
  let ctrlOff := ctrlOffBase * (7/10 + (3/10) * (1 - eased))
  let lift := 22/100 + (78/100) * eased
  let curlWidth := max 18 ((16/100) * w * (1 - eased + 2/10))
  let curlX := if dir = 1 then foldX - curlWidth * (1/2) else foldX + curlWidth * (1/2)
  let darkX0 := if dir = 1 then foldX else foldX - 18
  [DrawOp.pageImg back, DrawOp.ambient,
   DrawOp.clippedPage front foldX ctrlOff dir,
   DrawOp.shadowBand foldX ((38/100) * (35/100 + (65/100) * eased)),
   DrawOp.elevShadow foldX lift,
   DrawOp.specular curlX curlWidth ((18/100) * (4/10 + (6/10) * eased)),
   DrawOp.thickness darkX0 dir]

/-- render (lines 227-239): clears, then either the flat current page (when
not dragging, or when the drag direction has no neighbouring page) or the
fold at `t = clamp(dist/(width*0.9),0,1)` toward the clamped neighbour. -/
noncomputable def renderOps (N : ℕ) (s : ViewerState) : List DrawOp :=
  let cur := s.page
  let nxt := clamp (s.page + 1) 0 ((N : ℤ) - 1)
  let prv := clamp (s.page - 1) 0 ((N : ℤ) - 1)
  if s.dragging = false then [DrawOp.clearRect, DrawOp.pageImg cur]
  else
    let dir : ℤ := if s.dragX < s.startX then 1 else -1
    let dist : ℚ := |s.dragX - s.startX|
    let t : ℚ := clamp (dist / (s.width * (9/10))) 0 1
    if dir = 1 ∧ s.page < (N : ℤ) - 1 then
      DrawOp.clearRect :: drawFold cur nxt (t : ℝ) 1 (s.width : ℝ) (s.height : ℝ)
    else if dir = -1 ∧ 0 < s.page then
      DrawOp.clearRect :: drawFold cur prv (t : ℝ) (-1) (s.width : ℝ) (s.height : ℝ)
    else [DrawOp.clearRect, DrawOp.pageImg cur]

/-- One frame of animateTo (lines 245-256): at wall-clock offset `elapsed`
it computes `t = clamp(elapsed/420, 0, 1)`, eases it with easeInOutCubic,
clears, and hands the eased value to drawFold as its progress. -/
noncomputable def animateToFrameOps (curPage targetPage dir : ℤ)
    (elapsed w h : ℝ) : List DrawOp :=
  let t := clamp (elapsed / 420) 0 1
  let e := easeInOutCubic t
  DrawOp.clearRect :: drawFold curPage targetPage e dir w h

/-- An image element as the script creates it: `new Image(); im.src = ...`;
the src is absent when the array lookup was out of range. -/
structure Img where
  src : Option String
deriving DecidableEq

/-- JS array indexing `IMAGES[i]`: `undefined` (none) for a negative index
or one at/past the length. -/
def IMAGESat (imgs : List String) (i : ℤ) : Option String :=
  if 0 ≤ i then imgs.get? i.toNat else none

/-- Lookup in the decoded-image cache (`cache.has(i)` / `cache.get(i)`). -/
def cacheLookup : List (ℤ × Img) → ℤ → Option Img
  | [], _ => none
  | (j, im) :: rest, i => if j = i then some im else cacheLookup rest i

/-- getImg (line 171): on a cache miss it builds an Image whose src is
`IMAGES[i]` (whatever that yields) and stores it, then returns the cached
entry; there is no bounds check and no error path. -/
def getImg (imgs : List String) (cache : List (ℤ × Img)) (i : ℤ) :
    Img × List (ℤ × Img) :=
  match cacheLookup cache i with
  | some im => (im, cache)
  | none =>
    let im : Img := { src := IMAGESat imgs i }
    (im, (i, im) :: cache)

/-- A mid-drag state whose release distance (22) is exactly
`width * 0.22` for a 100-wide surface. -/
def sC1 : ViewerState := ⟨100, 141, 1, 3, true, 0, 22, []⟩

/-- A committed forward drag (release distance 40 on a 100-wide surface). -/
def sC1w : ViewerState := ⟨100, 141, 1, 0, true, 50, 10, []⟩

/-- A mid-drag state at drag distance zero (`dragX = startX`) on page 1. -/
def sC2 : ViewerState := ⟨100, 141, 1, 1, true, 50, 50, []⟩

/-- An idle state on page 1 of a narrow (40-wide) surface, where the two
28-pixel edge zones overlap. -/
def sC6 : ViewerState := ⟨40, 141, 1, 1, false, 0, 0, []⟩

/-- An idle state on page 1 of a 100-wide surface. -/
def sC6w : ViewerState := ⟨100, 141, 1, 1, false, 0, 0, []⟩

/-- An idle state on page 1 of a 100-wide surface (start of the C10 trace). -/
def sC10 : ViewerState := ⟨100, 141, 1, 1, false, 0, 0, []⟩

/-- A drag that began at `startX = 73` (right edge zone of a 100-wide
surface) but was released at `dragX = 99 > startX`. -/
def sC10w : ViewerState := ⟨100, 141, 1, 1, true, 73, 99, []⟩

/-! ## Helper lemmas -/

lemma easeOutCubic_mono {a b : ℝ} (hab : a ≤ b) (hb : b ≤ 1) :
    easeOutCubic a ≤ easeOutCubic b := by
  unfold easeOutCubic
  have h1 : (0:ℝ) ≤ 1 - b := by linarith
  have h2 : 1 - b ≤ 1 - a := by linarith
  have h3 := pow_le_pow_left h1 h2 3
  linarith

lemma easeOutCubic_nonneg {x : ℝ} (h0 : 0 ≤ x) (h1 : x ≤ 1) :
    0 ≤ easeOutCubic x := by
  unfold easeOutCubic
  have h2 : (1-x)^3 ≤ 1 := by
    calc (1-x)^3 ≤ 1^3 := pow_le_pow_left (by linarith) (by linarith) 3
      _ = 1 := one_pow 3
  linarith

lemma easeOutCubic_le_one {x : ℝ} (h1 : x ≤ 1) : easeOutCubic x ≤ 1 := by
  unfold easeOutCubic
  have h2 : (0:ℝ) ≤ (1-x)^3 := pow_nonneg (by linarith) 3
  linarith

lemma foldOf_mono {t1 t2 : ℝ} (h0 : 0 ≤ t1) (h12 : t1 ≤ t2) (h21 : t2 ≤ 1) :
    foldOf t1 ≤ foldOf t2 := by
  unfold foldOf drawFoldEased
  have heMono : easeOutCubic t1 ≤ easeOutCubic t2 := easeOutCubic_mono h12 h21
  have heNN : 0 ≤ easeOutCubic t1 := easeOutCubic_nonneg h0 (le_trans h12 h21)
  have heLe : easeOutCubic t2 ≤ 1 := easeOutCubic_le_one h21
  have hcos : Real.cos (easeOutCubic t2 * Real.pi) ≤
      Real.cos (easeOutCubic t1 * Real.pi) := by
    apply Real.cos_le_cos_of_nonneg_of_le_pi
    · exact mul_nonneg heNN Real.pi_pos.le
    · calc easeOutCubic t2 * Real.pi ≤ 1 * Real.pi :=
          mul_le_mul_of_nonneg_right heLe Real.pi_pos.le
        _ = Real.pi := one_mul _
    · exact mul_le_mul_of_nonneg_right heMono Real.pi_pos.le
  have hsub : 1 - Real.cos (easeOutCubic t1 * Real.pi) ≤
      1 - Real.cos (easeOutCubic t2 * Real.pi) := by linarith
  exact mul_le_mul_of_nonneg_right hsub (by norm_num)

lemma easeInOutCubic_pos {t : ℝ} (h0 : 0 < t) (h1 : t < 1) :
    0 < easeInOutCubic t := by
  unfold easeInOutCubic
  split_ifs with hlt
  · positivity
  · have ha : (0:ℝ) ≤ -2*t+2 := by linarith
    have hb : -2*t+2 ≤ 1 := by
      have := not_lt.mp hlt
      linarith
    have h2 : (-2*t+2)^3 ≤ 1 := by
      calc (-2*t+2)^3 ≤ 1^3 := pow_le_pow_left ha hb 3
        _ = 1 := one_pow 3
    linarith

lemma easeInOutCubic_lt_one {t : ℝ} (h0 : 0 < t) (h1 : t < 1) :
    easeInOutCubic t < 1 := by
  unfold easeInOutCubic
  split_ifs with hlt
  · nlinarith [mul_pos h0 h0, mul_pos (mul_pos h0 h0) h0]
  · have h2 : (0:ℝ) < (-2*t+2)^3 := pow_pos (by linarith) 3
    linarith

lemma easeOutCubic_gt_id {y : ℝ} (h0 : 0 < y) (h1 : y < 1) :
    y < easeOutCubic y := by
  unfold easeOutCubic
  nlinarith [mul_pos (mul_pos (sub_pos.mpr h1) h0) (by linarith : (0:ℝ) < 2 - y)]

/-! ## Claim theorems -/

/-- C5: the spec invariant `currentPageIndex ∈ [0, pageCount-1]` is violated
by the code: on a 2-page document, a gesture that starts in the right edge
zone (x = 73 of a 100-wide surface), moves right to x = 99 and releases,
commits with target `page - 1 = -1`; when the animation completes the
current page index is -1, an invalid index. -/
theorem reachable_negative_pageIndex :
    (run 2 [Ev.down 73, Ev.move 99, Ev.up, Ev.animDone 0]
      (initState 100 141)).page = -1 ∧
    ¬(0 ≤ (run 2 [Ev.down 73, Ev.move 99, Ev.up, Ev.animDone 0]
      (initState 100 141)).page) := by
  have hrun : run 2 [Ev.down 73, Ev.move 99, Ev.up, Ev.animDone 0]
      (initState 100 141) = ⟨100, 141, 1, -1, false, 73, 99, []⟩ := by
    norm_num [run, step, onPointerDown, onPointerMove, onPointerUp,
      animComplete, initState, EDGE_ZONE]
  rw [hrun]
  norm_num

/-- C1 (counterexample): a release at drag distance exactly equal to
`commitThreshold = width * 0.22` does NOT commit: the code tests
`dist > width*0.22` strictly, so the state returns to Idle with the page
unchanged and no animation started. -/
theorem pointerUp_at_exact_threshold_snaps_back :
    |sC1.dragX - sC1.startX| = sC1.width * (22/100) ∧
    onPointerUp sC1 = { sC1 with dragging := false } ∧
    (onPointerUp sC1).anims = [] ∧ (onPointerUp sC1).page = 3 := by
  refine ⟨by norm_num [sC1], ?_, ?_, ?_⟩ <;>
    norm_num [onPointerUp, sC1]

/-- C1 (amended): on pointer-up while dragging, a release at distance
strictly greater than `width * 0.22` starts a commit animation toward
`page + 1` (forward drag, `dragX < startX`) or `page - 1` (backward drag);
a release at distance less than OR EQUAL to the threshold returns to Idle
with the page unchanged and the next frame drawing the flat current page. -/
theorem pointerUp_commit_strict (s : ViewerState) (h : s.dragging = true) :
    (s.width * (22/100) < |s.dragX - s.startX| →
      (onPointerUp s).anims =
        ((if s.dragX < s.startX then s.page + 1 else s.page - 1),
         (if s.dragX < s.startX then (1 : ℤ) else -1)) :: s.anims ∧
      (onPointerUp s).page = s.page ∧
      phase (onPointerUp s) = FlipPhase.animating) ∧
    (|s.dragX - s.startX| ≤ s.width * (22/100) →
      onPointerUp s = { s with dragging := false } ∧
      ∀ N : ℕ, renderOps N { s with dragging := false } =
        [DrawOp.clearRect, DrawOp.pageImg s.page]) := by
  constructor
  · intro hlt
    by_cases hdir : s.dragX < s.startX
    · simp [onPointerUp, h, hdir, hlt, phase]
    · simp [onPointerUp, h, hdir, hlt, phase, Int.sub_eq_add_neg]
  · intro hle
    have hnc : ¬(s.width * (22/100) < |s.dragX - s.startX|) := not_lt.mpr hle
    refine ⟨by simp [onPointerUp, h, hnc], fun N => ?_⟩
    simp [renderOps]

/-- C1 (witness): a forward drag on a 100-wide surface released at distance
40 > 22 commits toward page 1. -/
theorem pointerUp_commit_strict_w :
    (onPointerUp sC1w).anims = [(1, 1)] ∧ (onPointerUp sC1w).page = 0 := by
  obtain ⟨h1, h2, -⟩ := (pointerUp_commit_strict sC1w rfl).1 (by norm_num [sC1w])
  refine ⟨?_, h2⟩
  rw [h1]
  norm_num [sC1w]

/-- C3 (counterexample): after the reachable trace down(73), move(1), up on
a 3-page 100-wide document the machine is in phase Animating (a commit
animation toward page 1 is in flight), yet a pointer-down at x = 73 is NOT
ignored: it overwrites `dragX` (from 1 to 72.99), starting a new drag while
the animation keeps running.  The handler has no phase guard. -/
theorem pointerDown_during_animating_not_ignored :
    phase (run 3 [Ev.down 73, Ev.move 1, Ev.up] (initState 100 141)) =
      FlipPhase.animating ∧
    (run 3 [Ev.down 73, Ev.move 1, Ev.up] (initState 100 141)).dragX = 1 ∧
    (onPointerDown 3 73 (run 3 [Ev.down 73, Ev.move 1, Ev.up]
      (initState 100 141))).dragX = 7299/100 ∧
    onPointerDown 3 73 (run 3 [Ev.down 73, Ev.move 1, Ev.up]
      (initState 100 141)) ≠
      run 3 [Ev.down 73, Ev.move 1, Ev.up] (initState 100 141) := by
  have hrun : run 3 [Ev.down 73, Ev.move 1, Ev.up] (initState 100 141) =
      ⟨100, 141, 1, 0, true, 73, 1, [(1, 1)]⟩ := by
    norm_num [run, step, onPointerDown, onPointerMove, onPointerUp,
      initState, EDGE_ZONE]
  rw [hrun]
  refine ⟨by norm_num [phase], by norm_num, ?_, ?_⟩ <;>
    norm_num [onPointerDown, EDGE_ZONE, ViewerState.mk.injEq]

/-- C3 (amended): pointer-down never touches the current page index or the
in-flight animations, and is a complete no-op unless it lands in an edge
zone whose neighbouring page exists — but in that case it overwrites the
drag fields regardless of the current phase (the handler only tests the
edge zones and the page bounds, not the phase). -/
theorem pointerDown_preserves_page_and_animations (N : ℕ) (x : ℚ)
    (s : ViewerState) :
    (onPointerDown N x s).anims = s.anims ∧
    (onPointerDown N x s).page = s.page ∧
    (¬((x < EDGE_ZONE ∧ 0 < s.page) ∨
       (s.width - EDGE_ZONE < x ∧ s.page < (N : ℤ) - 1)) →
      onPointerDown N x s = s) := by
  unfold onPointerDown
  by_cases h1 : x < EDGE_ZONE ∧ 0 < s.page
  · simp [h1]
  · by_cases h2 : x > s.width - EDGE_ZONE ∧ s.page < (N : ℤ) - 1
    · simp [h1, h2]
    · simp [h1, h2]

/-- C3 (witness): a pointer-down in the middle of the surface changes
nothing. -/
theorem pointerDown_preserves_page_and_animations_w :
    onPointerDown 3 50 (initState 100 141) = initState 100 141 := by
  exact (pointerDown_preserves_page_and_animations 3 50 (initState 100 141)).2.2
    (by norm_num [initState, EDGE_ZONE])

/-- C6 (counterexample): on a 40-wide surface the two 28-pixel edge zones
overlap.  A pointer-down at x = 20 with `page = 1` of 3 satisfies the
right-edge-zone condition with an existing next page, yet the machine
starts a BACKWARD drag (`dragX` seeded to x + 0.01), because the left-edge
branch is tested first: the claimed forward-iff fails. -/
theorem pointerDown_overlapping_zones_prefers_backward :
    (sC6.width - EDGE_ZONE < 20 ∧ sC6.page < (3 : ℤ) - 1) ∧
    onPointerDown 3 20 sC6 =
      { sC6 with dragging := true, startX := 20, dragX := 20 + 1/100 } ∧
    (onPointerDown 3 20 sC6).dragX ≠ 20 - 1/100 := by
  refine ⟨by norm_num [sC6, EDGE_ZONE], ?_, ?_⟩ <;>
    norm_num [onPointerDown, sC6, EDGE_ZONE]

/-- C6 (amended): from Idle, pointer-down starts a backward drag iff it is
in the left edge zone with a previous page; it starts a forward drag iff it
is in the right edge zone with a next page AND the backward condition does
not hold (the left-edge branch has priority when the zones overlap, which
happens when width < 56); otherwise the state is unchanged. -/
theorem pointerDown_edge_gating (N : ℕ) (x : ℚ) (s : ViewerState)
    (h : s.dragging = false) :
    (onPointerDown N x s =
        { s with dragging := true, startX := x, dragX := x + 1/100 } ↔
      (x < EDGE_ZONE ∧ 0 < s.page)) ∧
    (onPointerDown N x s =
        { s with dragging := true, startX := x, dragX := x - 1/100 } ↔
      ((s.width - EDGE_ZONE < x ∧ s.page < (N : ℤ) - 1) ∧
       ¬(x < EDGE_ZONE ∧ 0 < s.page))) ∧
    ((¬(x < EDGE_ZONE ∧ 0 < s.page) ∧
      ¬(s.width - EDGE_ZONE < x ∧ s.page < (N : ℤ) - 1)) →
      onPointerDown N x s = s) := by
  rcases s with ⟨w, ht, dp, pg, dr, sx, dx, an⟩
  simp only [ViewerState.dragging] at h
  subst h
  unfold onPointerDown
  by_cases h1 : x < EDGE_ZONE ∧ 0 < pg
  · simp only [h1, if_pos]
    simp [ViewerState.mk.injEq, h1]
    intro hc
    linarith
  · by_cases h2 : x > w - EDGE_ZONE ∧ pg < (N : ℤ) - 1
    · simp only [ViewerState.mk.injEq] at *
      simp [h1, h2]
      intro hc
      linarith
    · simp [ViewerState.mk.injEq, h1, h2]

/-- C6 (witness): a pointer-down at x = 5 (left edge zone) on page 1 of a
100-wide 3-page document starts a backward drag. -/
theorem pointerDown_edge_gating_w :
    onPointerDown 3 5 sC6w =
      { sC6w with dragging := true, startX := 5, dragX := 5 + 1/100 } := by
  exact (pointerDown_edge_gating 3 5 sC6w rfl).1.mpr
    (by norm_num [sC6w, EDGE_ZONE])

/-- C9: a resize event, in any state (any phase, mid-drag included),
changes only the surface geometry: `width` and `height` are overwritten,
`dpi` becomes the clamped pixel ratio (never above 2), and the page index,
the drag flag and coordinates, the pending animations and hence the phase
are all untouched. -/
theorem resize_changes_only_geometry (s : ViewerState) (w h dpr : ℚ) :
    (resize w h dpr s).page = s.page ∧
    (resize w h dpr s).dragging = s.dragging ∧
    (resize w h dpr s).startX = s.startX ∧
    (resize w h dpr s).dragX = s.dragX ∧
    (resize w h dpr s).anims = s.anims ∧
    phase (resize w h dpr s) = phase s ∧
    (resize w h dpr s).width = w ∧
    (resize w h dpr s).height = h ∧
    (resize w h dpr s).dpi = devicePixelRatioSafe dpr ∧
    (resize w h dpr s).dpi ≤ 2 := by
  refine ⟨rfl, rfl, rfl, rfl, rfl, ?_, rfl, rfl, rfl, ?_⟩
  · simp [phase, resize]
  · exact min_le_right _ _

/-- C10: the drag direction is never latched.  (1) At pointer-up it is
recomputed as the sign of `dragX - startX`: any dragging state released
with `dragX ≥ startX` beyond the threshold commits toward `page - 1`,
whatever edge the gesture started from.  (2) At render time the same sign
test picks the backward fold.  (3) Concretely, on a 3-page document a
gesture starting at x = 73 (right edge zone, gated only by
`page < pageCount-1`) and released at x = 99 > startX commits an animation
with target `page - 1 = 0`, a direction the edge-zone check never gated. -/
theorem drag_direction_not_latched :
    (∀ s : ViewerState, s.dragging = true → ¬(s.dragX < s.startX) →
      s.width * (22/100) < |s.dragX - s.startX| →
      (onPointerUp s).anims = (s.page - 1, -1) :: s.anims) ∧
    (∀ N : ℕ, ∀ s : ViewerState, s.dragging = true → ¬(s.dragX < s.startX) →
      0 < s.page →
      renderOps N s = DrawOp.clearRect ::
        drawFold s.page (clamp (s.page - 1) 0 ((N : ℤ) - 1))
          ((clamp (|s.dragX - s.startX| / (s.width * (9/10))) 0 1 : ℚ) : ℝ)
          (-1) (s.width : ℝ) (s.height : ℝ)) ∧
    (sC10.width - EDGE_ZONE < 73 ∧
     (run 3 [Ev.down 73, Ev.move 99, Ev.up] sC10).anims = [(0, -1)]) := by
  refine ⟨?_, ?_, by norm_num [sC10, EDGE_ZONE], ?_⟩
  · intro s h hdir hlt
    simp [onPointerUp, h, hdir, hlt, Int.sub_eq_add_neg]
  · intro N s h hdir hpg
    simp [renderOps, h, hdir, hpg]
  · norm_num [run, step, onPointerDown, onPointerMove, onPointerUp,
      sC10, EDGE_ZONE]

/-- C10 (witness): the release of the C10 drag state commits toward
page 0 = page - 1. -/
theorem drag_direction_not_latched_w :
    (onPointerUp sC10w).anims = [(0, -1)] := by
  have h1 := drag_direction_not_latched.1 sC10w rfl
    (by norm_num [sC10w]) (by norm_num [sC10w])
  rw [h1]
  norm_num [sC10w]

/-- C2 (counterexample): at drag progress 0 the render is NOT the flat
single-page draw.  In state sC2 (`dragging`, `dragX = startX`, page 1) the
computed progress is 0, yet render calls drawFold, which still emits the
back page, the ambient overlay, the clipped front page, a shadow band of
intensity 0.38·0.35, an elevation shadow of lift 0.22, a specular highlight
and a thickness band. -/
theorem render_at_zero_progress_not_flat :
    clamp (|sC2.dragX - sC2.startX| / (sC2.width * (9/10))) 0 1 = 0 ∧
    renderOps 3 sC2 ≠ [DrawOp.clearRect, DrawOp.pageImg sC2.page] := by
  constructor
  · norm_num [clamp, sC2, min_def, max_def]
  · intro hc
    have hlen := congrArg List.length hc
    norm_num [renderOps, sC2, drawFold, min_def, max_def] at hlen

/-- C2 (amended): the flat single-page draw is produced exactly by the
not-dragging branch: whenever `dragging` is false, render clears and draws
only the current page, with no fold artifacts. -/
theorem render_flat_when_not_dragging (N : ℕ) (s : ViewerState)
    (h : s.dragging = false) :
    renderOps N s = [DrawOp.clearRect, DrawOp.pageImg s.page] := by
  simp [renderOps, h]

/-- C2 (witness): the freshly initialised viewer renders page 0 flat. -/
theorem render_flat_when_not_dragging_w :
    renderOps 3 (initState 100 141) = [DrawOp.clearRect, DrawOp.pageImg 0] :=
  render_flat_when_not_dragging 3 (initState 100 141) rfl

/-- C4 (counterexample): in the committed animation at half duration
(elapsed 210 of 420 ms) the scheduler computes `easeInOutCubic(1/2) = 1/2`
and hands it to drawFold, whose own `eased = easeOutCubic(t)` (line 183)
turns it into 7/8: the progress used by the curl geometry is NOT
`easeInOutCubic(t)` — it is eased twice. -/
theorem animation_progress_double_eased_cex :
    easeInOutCubic (clamp ((210:ℝ)/420) 0 1) = 1/2 ∧
    drawFoldEased (easeInOutCubic (clamp ((210:ℝ)/420) 0 1)) = 7/8 ∧
    drawFoldEased (easeInOutCubic (clamp ((210:ℝ)/420) 0 1)) ≠
      easeInOutCubic (clamp ((210:ℝ)/420) 0 1) := by
  have hc : clamp ((210:ℝ)/420) 0 1 = 1/2 := by
    unfold clamp
    rw [min_eq_right (by norm_num : (210:ℝ)/420 ≤ 1),
        max_eq_right (by norm_num : (0:ℝ) ≤ 210/420)]
    norm_num
  have he : easeInOutCubic ((1:ℝ)/2) = 1/2 := by
    unfold easeInOutCubic
    rw [if_neg (by norm_num : ¬((1:ℝ)/2 < 1/2))]
    norm_num
  have ho : drawFoldEased ((1:ℝ)/2) = 7/8 := by
    unfold drawFoldEased easeOutCubic
    norm_num
  rw [hc, he]
  exact ⟨rfl, ho, by rw [ho]; norm_num⟩

/-- C4 (amended): a live drag applies exactly one easing (drawFold's
ease-out); the committed animation applies easeInOutCubic in the scheduler
AND THEN drawFold applies easeOutCubic on top, so the effective eased
progress of the curl geometry is the composition — which strictly exceeds
the single ease-in-out value throughout the open unit interval. -/
theorem animation_easing_composition :
    (∀ curPage targetPage dir : ℤ, ∀ elapsed w h : ℝ,
      animateToFrameOps curPage targetPage dir elapsed w h =
        DrawOp.clearRect :: drawFold curPage targetPage
          (easeInOutCubic (clamp (elapsed/420) 0 1)) dir w h) ∧
    (∀ t : ℝ, drawFoldEased t = easeOutCubic t) ∧
    (∀ t : ℝ, 0 < t → t < 1 →
      easeInOutCubic t < drawFoldEased (easeInOutCubic t)) := by
  refine ⟨fun _ _ _ _ _ _ => rfl, fun _ => rfl, fun t h0 h1 => ?_⟩
  have hp := easeInOutCubic_pos h0 h1
  have hl := easeInOutCubic_lt_one h0 h1
  have hgt := easeOutCubic_gt_id hp hl
  simpa [drawFoldEased] using hgt

/-- C4 (witness): at the animation midpoint the double easing strictly
overshoots the scheduler's eased value. -/
theorem animation_easing_composition_w :
    easeInOutCubic ((1:ℝ)/2) < drawFoldEased (easeInOutCubic ((1:ℝ)/2)) :=
  animation_easing_composition.2.2 (1/2) (by norm_num) (by norm_num)

/-- C7: the fold amount is `(1 - cos(eased·π)) · k` with `k = 0.95`, inside
the claimed range [0.92, 0.95]; and in the forward direction the horizontal
extent swept by the fold — the distance `width - foldX` from the trailing
(right) edge to the fold — is monotonically non-decreasing in the progress
over [0,1]. -/
theorem foldAmount_formula_and_sweep_monotone :
    (∃ k : ℝ, (92/100 ≤ k ∧ k ≤ 95/100) ∧
      ∀ t : ℝ, foldOf t = (1 - Real.cos (easeOutCubic t * Real.pi)) * k) ∧
    (∀ w t1 t2 : ℝ, 0 ≤ w → 0 ≤ t1 → t1 ≤ t2 → t2 ≤ 1 →
      w - foldXOf t1 1 w ≤ w - foldXOf t2 1 w) := by
  constructor
  · exact ⟨95/100, ⟨by norm_num, le_refl _⟩, fun t => rfl⟩
  · intro w t1 t2 hw h0 h12 h21
    have hmono := foldOf_mono h0 h12 h21
    have hmul := mul_le_mul_of_nonneg_right hmono hw
    norm_num [foldXOf]
    linarith

/-- C7 (witness): on a unit-width surface the sweep at progress 0 is at
most the sweep at progress 1. -/
theorem foldAmount_formula_and_sweep_monotone_w :
    (1:ℝ) - foldXOf 0 1 1 ≤ 1 - foldXOf 1 1 1 :=
  foldAmount_formula_and_sweep_monotone.2 1 0 1 (by norm_num) (by norm_num)
    (by norm_num) (by norm_num)

/-- C8 (counterexample): `getImg` does not fail with OutOfRange on an
out-of-bounds index.  For index -1 on a 2-page document it returns an
Image whose src is the undefined lookup `IMAGES[-1]`, and it even caches
that broken image; a repeated call returns the same cached object. -/
theorem getImg_out_of_range_returns_image :
    ¬(0 ≤ (-1 : ℤ)) ∧
    getImg ["a", "b"] [] (-1) =
      ({ src := none }, [(-1, { src := none })]) ∧
    (getImg ["a", "b"] (getImg ["a", "b"] [] (-1)).2 (-1)).1 =
      { src := none } := by
  refine ⟨by norm_num, rfl, rfl⟩

/-- C8 (amended): `getImg` is total — a cache hit returns the cached image
(cache unchanged), a miss builds an image from the raw array lookup
(absent src when out of bounds) and memoizes it — repeated calls return
the identical resource without re-decoding, and for an in-bounds index the
miss path returns the decoded page `IMAGES[i]`. -/
theorem getImg_total_and_memoized (imgs : List String)
    (cache : List (ℤ × Img)) (i : ℤ) :
    (∀ im, cacheLookup cache i = some im → getImg imgs cache i = (im, cache)) ∧
    (cacheLookup cache i = none →
      getImg imgs cache i =
        ({ src := IMAGESat imgs i }, (i, { src := IMAGESat imgs i }) :: cache)) ∧
    (getImg imgs (getImg imgs cache i).2 i =
      ((getImg imgs cache i).1, (getImg imgs cache i).2)) ∧
    (0 ≤ i → i.toNat < imgs.length → cacheLookup cache i = none →
      ∃ v, imgs.get? i.toNat = some v ∧
        (getImg imgs cache i).1 = { src := some v }) := by
  refine ⟨?_, ?_, ?_, ?_⟩
  · intro im him
    simp [getImg, him]
  · intro hnone
    simp [getImg, hnone]
  · cases hc : cacheLookup cache i with
    | some im => simp [getImg, hc]
    | none => simp [getImg, hc, cacheLookup]
  · intro h0 hlt hnone
    obtain ⟨v, hv⟩ : ∃ v, imgs.get? i.toNat = some v :=
      ⟨imgs.get ⟨i.toNat, hlt⟩, List.get?_eq_some.mpr ⟨hlt, rfl⟩⟩
    have hv2 := hv
    simp only [List.get?_eq_getElem?] at hv2
    exact ⟨v, hv, by simp [getImg, hnone, IMAGESat, h0, hv2]⟩

/-- C8 (witness): the first in-bounds fetch decodes and caches page 0. -/
theorem getImg_total_and_memoized_w :
    getImg ["a", "b"] [] 0 =
      ({ src := some "a" }, [(0, { src := some "a" })]) := by
  have h1 := (getImg_total_and_memoized ["a", "b"] [] 0).2.1 rfl
  rw [h1]
  simp [IMAGESat]
